import Mathlib

/-!
# Verification of `bun-plugin-strip`

Shallow embedding of the bun-plugin-strip build-time source transformer
(`src/index.ts`, plus the unnamed variant file of the same plugin), together
with proofs settling the specification claims.

The repository's code consists of:
* a pattern matcher (delegating to the external `minimatch` library),
* a file include/exclude filter (`makeRegex` / the `onLoad` filter),
* a syntax-tree rewriter (`makeTransformer` / `shouldStrip`) over the
  TypeScript AST, replacing matched call expressions by `void 0` and
  `debugger` statements by empty statements,
* configuration resolution (`Strip`, `getCompilerOptions`).

External collaborators (the `minimatch` glob matcher, the TypeScript
parse/print API and compiler-options helpers) are modelled explicitly;
each model's doc comment states what it is modelled from.
-/

namespace BunPluginStrip

/-! ## Model of the external `minimatch` glob matcher

Modelled from the external `minimatch` library with default options,
restricted to the pattern constructs this plugin's configuration uses:
literal characters, `*` (any run of non-separator characters), `?`
(one non-separator character), and the globstar path segment `**`.
`minimatch` splits both pattern and candidate on `/` and matches
segment-by-segment; a `*` never crosses a `/`; a segment pattern that is
exactly `**` (a globstar) may consume any number of path segments, none of
which may start with a dot; a segment pattern starting with `*` or `?`
does not match a segment starting with a dot; the pattern `*` requires a
non-empty segment.  The matchers are written with explicit fuel so that
they are structurally recursive and reduce inside the kernel. -/

/-- Glob segment matching on character lists, with fuel.  `'*'` matches any
run of characters, `'?'` exactly one, anything else literally. -/
def matchCharsF : Nat → List Char → List Char → Bool
  | 0, _, _ => false
  | _ + 1, [], [] => true
  | fuel + 1, '*' :: ps, cs =>
      matchCharsF fuel ps cs ||
        (match cs with
         | [] => false
         | _ :: cs' => matchCharsF fuel ('*' :: ps) cs')
  | fuel + 1, '?' :: ps, _ :: cs => matchCharsF fuel ps cs
  | fuel + 1, p :: ps, c :: cs => p == c && matchCharsF fuel ps cs
  | _ + 1, _, _ => false

/-- Whether a glob segment pattern begins with a wildcard (the default
"dot" rule of minimatch refuses to let such patterns match hidden names). -/
def magicStart : List Char → Bool
  | '*' :: _ => true
  | '?' :: _ => true
  | _ => false

/-- Whether a name begins with a dot. -/
def dotStart : List Char → Bool
  | '.' :: _ => true
  | _ => false

/-- Match one glob pattern segment against one path/name segment
(minimatch default options: wildcard-initial patterns do not match
dot-initial names, and the bare pattern `*` requires a non-empty name). -/
def matchSegment (p s : List Char) : Bool :=
  (!(magicStart p && dotStart s)) &&
    (!(p == ['*'] && s == [])) &&
    matchCharsF (p.length + s.length + 1) p s

/-- Split a character list on `/` (as minimatch splits patterns and
candidates into path segments). -/
def splitSlash : List Char → List (List Char)
  | [] => [[]]
  | '/' :: cs => [] :: splitSlash cs
  | c :: cs =>
      match splitSlash cs with
      | [] => [[c]]
      | s :: ss => (c :: s) :: ss

/-- Segment-list matching with fuel: a `**` segment (globstar) consumes any
number of non-hidden path segments; other segments match one-to-one. -/
def matchSegsF : Nat → List (List Char) → List (List Char) → Bool
  | 0, _, _ => false
  | _ + 1, [], [] => true
  | fuel + 1, p :: ps, ss =>
      if p == ['*', '*'] then
        matchSegsF fuel ps ss ||
          (match ss with
           | [] => false
           | s :: ss' => (!dotStart s) && matchSegsF fuel (p :: ps) ss')
      else
        match ss with
        | [] => false
        | s :: ss' => matchSegment p s && matchSegsF fuel ps ss'
  | _ + 1, [], _ :: _ => false

/-- Model of `minimatch(target, pattern)` (default options) for the pattern
fragment used by the plugin.  Argument order follows the library: the
candidate string first, the glob pattern second. -/
def minimatch (target pattern : String) : Bool :=
  let ps := splitSlash pattern.data
  let ss := splitSlash target.data
  matchSegsF (ps.length + ss.length + 1) ps ss

/-! ## `FilterPattern` and the compiled file filters (`src/index.ts`) -/

/-- `export type FilterPattern = ReadonlyArray<string> | string | null`. -/
inductive FilterPattern where
  | null : FilterPattern
  | str : String → FilterPattern
  | list : List String → FilterPattern
deriving DecidableEq

/-- `[pattern ?? def].flat()` from `makeRegex`: a `null` pattern becomes the
one-element list holding the default, a single string becomes a singleton
list, an array stays as is. -/
def flatPatterns (pattern : FilterPattern) (d : String) : List String :=
  match pattern with
  | .null => [d]
  | .str s => [s]
  | .list l => l

/-- Model of testing the regular expression built by `makeRegex` against a
string.  `makeRegex` compiles each glob via `minimatch.makeRe` (an anchored
regex equivalent to `minimatch` matching for these patterns), wraps each
source in a group and joins with `|`; hence the test succeeds iff some
pattern matches.  Joining an empty pattern list yields the empty regular
expression, which matches every string. -/
def makeRegexTest (pattern : FilterPattern) (nullMatchesAll : Bool)
    (s : String) : Bool :=
  let d := if nullMatchesAll then "*" else ""
  let patterns := flatPatterns pattern d
  match patterns with
  | [] => true
  | _ => patterns.any (fun p => minimatch s p)

/-! ## Syntax trees

A closed fragment of the TypeScript AST covering the node kinds the
transformer inspects or that occur in the specification's examples.  As in
TypeScript, a property access (`a.b`) holds an arbitrary expression on the
left and a member *name* (an identifier or a private identifier, never a
computed expression) on the right; bracket access (`a[b]`) is the distinct
element-access kind.  Mutual inductives are used instead of nested `List`
and `Option` so that all recursions stay structural. -/

mutual
inductive Node where
  | ident : String → Node
  | privateIdent : String → Node
  | numLit : String → Node
  | strLit : String → Node
  | propAccess : Node → Node → Node
  | elemAccess : Node → Node → Node
  | callExpr : Node → NodeList → Node
  | voidExpr : Node → Node
  | exprStmt : Node → Node
  | debuggerStmt : Node
  | emptyStmt : Node
  | returnStmt : NodeOpt → Node
  | ifStmt : Node → Node → NodeOpt → Node
  | block : NodeList → Node
  | sourceFile : NodeList → Node
inductive NodeList where
  | nil : NodeList
  | cons : Node → NodeList → NodeList
inductive NodeOpt where
  | none : NodeOpt
  | some : Node → NodeOpt
end

/-- `ts.factory.createVoidZero()`: the expression `void 0`. -/
def voidZero : Node := .voidExpr (.numLit "0")

/-- `ts.isPropertyAccessExpression`. -/
def isPropertyAccessExpression : Node → Bool
  | .propAccess _ _ => true
  | _ => false

/-- `ts.isIdentifier`. -/
def isIdentifier : Node → Bool
  | .ident _ => true
  | _ => false

/-! ## `shouldStrip` (`src/index.ts` variant) -/

/-- The consumed fragment of `ts.CompilerOptions`: only `target` is ever
read by this plugin (`compilerOptions.target`). -/
structure CompilerOptions where
  target : Option Nat
deriving DecidableEq

/-- The internal `StripConfig` of `src/index.ts` (`functions: string[]`). -/
structure StripConfig where
  functions : List String
  stripDebugger : Bool
  compilerOptions : CompilerOptions

/-- `shouldStrip` from `src/index.ts`: requires the callee to be a property
access whose object and name are both plain identifiers, builds
`fullName = baseName + "." + methodName`, then runs the pattern loop.  The
loop body is `if (minimatch(fullName, p)) return true; break;` — the
unconditional `break` means only the first pattern of `config.functions`
is ever consulted. -/
def shouldStrip (config : StripConfig) (expr : Node) : Bool :=
  match expr with
  | .propAccess (.ident baseName) (.ident methodName) =>
      match config.functions with
      | [] => false
      | p :: _ => minimatch (baseName ++ "." ++ methodName) p
  | _ => false

/-! ## The tree rewriter (`makeTransformer`)

`makeTransformer` is textually identical in both implementation variants
except that each calls its own file's `shouldStrip`; the walk is therefore
parameterized by the strip predicate (`strip` below stands for
`expr => shouldStrip(config, expr)`) and by `config.stripDebugger`.
`walkP` is the `walk` closure: a call expression whose callee is a
property access passing the predicate becomes `void 0` (children, i.e. the
argument list, are discarded); a `debugger` statement becomes an empty
statement when `stripDebugger` holds; every other node is rebuilt with
`ts.visitEachChild`, recursively walking each child. -/

mutual
def walkP (strip : Node → Bool) (sd : Bool) : Node → Node
  | .callExpr callee args =>
      if isPropertyAccessExpression callee && strip callee then
        voidZero
      else
        .callExpr (walkP strip sd callee) (walkPList strip sd args)
  | .debuggerStmt => if sd then .emptyStmt else .debuggerStmt
  | .ident s => .ident s
  | .privateIdent s => .privateIdent s
  | .numLit s => .numLit s
  | .strLit s => .strLit s
  | .propAccess obj nm => .propAccess (walkP strip sd obj) (walkP strip sd nm)
  | .elemAccess obj ix => .elemAccess (walkP strip sd obj) (walkP strip sd ix)
  | .voidExpr e => .voidExpr (walkP strip sd e)
  | .exprStmt e => .exprStmt (walkP strip sd e)
  | .emptyStmt => .emptyStmt
  | .returnStmt e => .returnStmt (walkPOpt strip sd e)
  | .ifStmt c t e =>
      .ifStmt (walkP strip sd c) (walkP strip sd t) (walkPOpt strip sd e)
  | .block stmts => .block (walkPList strip sd stmts)
  | .sourceFile stmts => .sourceFile (walkPList strip sd stmts)
def walkPList (strip : Node → Bool) (sd : Bool) : NodeList → NodeList
  | .nil => .nil
  | .cons n l => .cons (walkP strip sd n) (walkPList strip sd l)
def walkPOpt (strip : Node → Bool) (sd : Bool) : NodeOpt → NodeOpt
  | .none => .none
  | .some n => .some (walkP strip sd n)
end

/-- `ts.visitNode(source, walk)` with the `src/index.ts` configuration:
the rewrite applied by `stripFunctions` at tree level. -/
def walk (config : StripConfig) : Node → Node :=
  walkP (shouldStrip config) config.stripDebugger

/-! ## The unnamed variant file (`src/unnamed/part_000`)

The second implementation variant differs in its external `Config` type
(`functions` is a nullable `FilterPattern` there), in resolving the file
filters directly with `minimatch`, and in `shouldStrip`: it starts with an
explicit `config.functions === null` check, spreads the pattern value into
an array, and iterates *without* the `break`, so every pattern is tried. -/

namespace Part000

/-- The array spread `[...fp]` applied to a (non-null) `FilterPattern`:
spreading a string iterates its characters, so each character becomes a
one-character pattern; spreading an array copies it.  (Spreading `null`
would throw, but every call site reaches the spread only after a `??` or
an explicit null check.) -/
def spreadFP : FilterPattern → List String
  | .null => []
  | .str s => s.data.map (fun c => String.mk [c])
  | .list l => l

/-- `shouldStrip` from `part_000`: `null` functions never strip; otherwise
the callee must be `identifier.identifier`, and `minimatch` is tried
against every pattern of `[...config.functions]` (match-any). -/
def shouldStrip (functions : FilterPattern) (expr : Node) : Bool :=
  match functions with
  | .null => false
  | fp =>
      match expr with
      | .propAccess (.ident baseName) (.ident methodName) =>
          (spreadFP fp).any (fun p => minimatch (baseName ++ "." ++ methodName) p)
      | _ => false

/-- `const functions = config.functions ?? ["console.*", "assert.*"]` in
`part_000`'s `Strip`: the `??` operator substitutes the default both when
the field is absent (`undefined`) and when it is explicitly `null`.  The
argument is the user-supplied `functions` field (`none` = absent). -/
def resolvedFunctions (functions : Option FilterPattern) : FilterPattern :=
  match functions with
  | Option.none => .list ["console.*", "assert.*"]
  | Option.some .null => .list ["console.*", "assert.*"]
  | Option.some fp => fp

/-- `part_000`'s rewrite at tree level: the shared transformer instantiated
with this variant's `shouldStrip`. -/
def walk (functions : FilterPattern) (stripDebugger : Bool) : Node → Node :=
  walkP (shouldStrip functions) stripDebugger

end Part000

/-! ## Configuration resolution and the load hook (`src/index.ts`) -/

/-- Default function patterns: `["console.*", "assert.*"]`. -/
def defaultFunctions : List String := ["console.*", "assert.*"]

/-- The user-facing `Config` of `src/index.ts`.  Optional fields are
`Option`; `include` is a Lean keyword, so that field is `includePat`
(likewise `excludePat` for uniformity).  In this variant `functions` is
typed `string[]`, not a nullable `FilterPattern`. -/
structure Config where
  includePat : Option FilterPattern := Option.none
  excludePat : Option FilterPattern := Option.none
  debuggerOpt : Option Bool := Option.none
  functions : Option (List String) := Option.none
  verbose : Option Bool := Option.none

/-- `config.functions ?? ["console.*", "assert.*"]`. -/
def resolvedFunctions (config : Config) : List String :=
  config.functions.getD defaultFunctions

/-- `config.debugger ?? true`. -/
def resolvedStripDebugger (config : Config) : Bool :=
  config.debuggerOpt.getD true

/-- `config.include ?? null` (passed to `makeFileFilter`). -/
def resolvedInclude (config : Config) : FilterPattern :=
  config.includePat.getD .null

/-- `config.exclude ?? ["*node_modules*"]` (passed to `makeFileFilter`). -/
def resolvedExclude (config : Config) : FilterPattern :=
  config.excludePat.getD (.list ["*node_modules*"])

/-- `const nothingToStrip = functions.length === 0 && !stripDebugger`. -/
def nothingToStrip (config : Config) : Bool :=
  (resolvedFunctions config).length == 0 && !(resolvedStripDebugger config)

/-- The `include` regular expression of `makeFileFilter` applied to a path:
`makeRegex(include, true)` — a `null` include pattern defaults to `"*"`.
This is the `filter` Bun tests before invoking the `onLoad` callback. -/
def includeTest (config : Config) (path : String) : Bool :=
  makeRegexTest (resolvedInclude config) true path

/-- The `exclude` regular expression of `makeFileFilter` applied to a path:
`makeRegex(exclude, false)` — a `null` exclude pattern defaults to `""`. -/
def excludeTest (config : Config) (path : String) : Bool :=
  makeRegexTest (resolvedExclude config) false path

/-! ## `getCompilerOptions` -/

/-- The consumed fragment of a parsed `tsconfig.json` `compilerOptions`
object: only `target` is relevant to this plugin. -/
structure CompilerOptionsJson where
  target : Option String
deriving DecidableEq

/-- The possible outcomes of reading the tsconfig file, as observed by
`getCompilerOptions`:
* `absent`  — `readFileSync` throws (missing/unreadable file);
* `valid o` — the file was read; `ts.parseConfigFileTextToJson` is
  error-recovering and always returns a config *object* (never `undefined`,
  even for malformed or empty content — errors are reported only through
  its separate `error` field, which this plugin ignores), so
  `result.config.compilerOptions` never throws; `o` is that optional
  `compilerOptions` member (`Option.none` both for a well-formed file
  lacking it and for content whose parse recovery produced no such
  member). -/
inductive TsConfigFile where
  | absent : TsConfigFile
  | valid : Option CompilerOptionsJson → TsConfigFile

/-- Modelled from the external TypeScript API: `ts.getDefaultCompilerOptions()`
(the language-service default) returns options with `target: ScriptTarget.ES5`
(numeric value 1). -/
def getDefaultCompilerOptions : CompilerOptions := ⟨Option.some 1⟩

/-- Modelled from the external TypeScript API: conversion of a `target`
name from tsconfig JSON to its `ts.ScriptTarget` numeric value (`es3 = 0`,
`es5 = 1`, `es2015`/`es6` = 2, ...); the API lowercases the JSON value
before the lookup, and an unrecognized name produces a diagnostic and
leaves `target` unset. -/
def convertTarget (name : String) : Option Nat :=
  match name.toLower with
  | "es3" => Option.some 0
  | "es5" => Option.some 1
  | "es6" => Option.some 2
  | "es2015" => Option.some 2
  | "es2016" => Option.some 3
  | "es2017" => Option.some 4
  | _ => Option.none

/-- Modelled from the external TypeScript API:
`ts.convertCompilerOptionsFromJson(jsonOptions, "")` starts from an *empty*
options object (its internal default for a nameless config file) and, when
`jsonOptions` is `undefined`, returns that empty object unchanged — it does
not throw and it does not apply `ts.getDefaultCompilerOptions()`. -/
def convertCompilerOptionsFromJson : Option CompilerOptionsJson → CompilerOptions
  | Option.none => ⟨Option.none⟩
  | Option.some j => ⟨j.target.bind convertTarget⟩

/-- The `try` block of `getCompilerOptions`: read the file, parse it, and
convert `result.config.compilerOptions`.  Only the read (`readFileSync`)
can throw (modelled as `Except.error`); once the file is read, the
error-recovering parse and the conversion are total. -/
def getCompilerOptionsBody : TsConfigFile → Except Unit CompilerOptions
  | .absent => .error ()
  | .valid co => .ok (convertCompilerOptionsFromJson co)

/-- `getCompilerOptions` from `src/index.ts`: the `try`/`catch` — any
exception is swallowed and replaced by `ts.getDefaultCompilerOptions()`.
The function is total: it never propagates an error to the caller. -/
def getCompilerOptions (file : TsConfigFile) : CompilerOptions :=
  match getCompilerOptionsBody file with
  | .ok options => options
  | .error _ => getDefaultCompilerOptions

/-! ## `stripFunctions` and the `onLoad` callback -/

/-- `node:path`'s `basename`: the final path segment. -/
def basenameOf (path : String) : String :=
  String.mk ((splitSlash path.data).getLastD [])

/-- `config.compilerOptions.target || ts.ScriptTarget.ES2015`: JavaScript's
`||` replaces any falsy value — both `undefined` and the numeric value `0`
(`ScriptTarget.ES3`) — by `ES2015` (numeric value 2). -/
def parseTarget (options : CompilerOptions) : Nat :=
  match options.target with
  | Option.some t => if t == 0 then 2 else t
  | Option.none => 2

/-- `stripFunctions` from `src/index.ts`, with the external parse/print
collaborators as parameters: parse the source (`ts.createSourceFile` with
the file's basename and the resolved script target), transform the tree,
and print it back (`ts.createPrinter().printNode`). -/
def stripFunctions (config : StripConfig)
    (parse : String → String → Nat → Node) (printTree : Node → String)
    (path source : String) : String :=
  let sourceFile := parse (basenameOf path) source (parseTarget config.compilerOptions)
  printTree (walk config sourceFile)

/-- The value an `onLoad` callback resolves to: `{ contents }`, or
`undefined` (Bun's "no change" signal). -/
inductive OnLoadResult where
  | contents : String → OnLoadResult
  | undef : OnLoadResult
deriving DecidableEq

/-- The `onLoad` callback installed by `Strip` in `src/index.ts`, given the
resolved user config, the tsconfig read outcome, the external parse/print
collaborators, and the file's path and contents (the callback reads the
contents itself; here they are a parameter).  When `nothingToStrip`, the
callback is replaced by `async ({}) => undefined`; otherwise an excluded
path gets its contents back unchanged and any other path is transformed
with `stripFunctions`. -/
def onLoadCallback (config : Config) (tsconfig : TsConfigFile)
    (parse : String → String → Nat → Node) (printTree : Node → String)
    (path contents : String) : OnLoadResult :=
  if nothingToStrip config then
    .undef
  else if excludeTest config path then
    .contents contents
  else
    .contents (stripFunctions
      ⟨resolvedFunctions config, resolvedStripDebugger config, getCompilerOptions tsconfig⟩
      parse printTree path contents)

/-- Whether a file is visited and transformed by the plugin: Bun invokes
the callback only when the `include` filter regex matches the path, and the
callback transforms only when stripping is configured and the `exclude`
regex does not match. -/
def fileVisited (config : Config) (path : String) : Bool :=
  includeTest config path && !(nothingToStrip config) && !(excludeTest config path)

/-! ## The transformer with its logging side channel

The transformer closure carries two pieces of mutable state: the
per-source-file `needed_to_strip` flag and the process-wide `verbose`
logging flag read by `debug`.  `walkL` is the same `walk` closure with that
state made explicit: it threads `(needed_to_strip, emitted log lines)` and
takes `verbose` as a parameter.  `debug` writes to the console only when
`verbose` is set; the emitted lines are accumulated in a list. -/

/-- The `debug` helper: appends the message to the log only when the
process-wide `verbose` flag is set. -/
def debugLog (verbose : Bool) (msg : String) (log : List String) : List String :=
  if verbose then log ++ [msg] else log

mutual
def walkL (strip : Node → Bool) (sd verbose : Bool) (fileName : String) :
    Node → Bool → List String → Node × Bool × List String
  | .callExpr callee args, needed, log =>
      if isPropertyAccessExpression callee && strip callee then
        if needed then (voidZero, needed, log)
        else (voidZero, true, debugLog verbose ("bun-plugin-strip: stripping file " ++ fileName) log)
      else
        let r1 := walkL strip sd verbose fileName callee needed log
        let r2 := walkLList strip sd verbose fileName args r1.2.1 r1.2.2
        (.callExpr r1.1 r2.1, r2.2)
  | .debuggerStmt, needed, log =>
      if sd then
        (.emptyStmt, needed, debugLog verbose ("bun-plugin-strip: stripping debugger " ++ fileName) log)
      else (.debuggerStmt, needed, log)
  | .ident s, needed, log => (.ident s, needed, log)
  | .privateIdent s, needed, log => (.privateIdent s, needed, log)
  | .numLit s, needed, log => (.numLit s, needed, log)
  | .strLit s, needed, log => (.strLit s, needed, log)
  | .propAccess obj nm, needed, log =>
      let r1 := walkL strip sd verbose fileName obj needed log
      let r2 := walkL strip sd verbose fileName nm r1.2.1 r1.2.2
      (.propAccess r1.1 r2.1, r2.2)
  | .elemAccess obj ix, needed, log =>
      let r1 := walkL strip sd verbose fileName obj needed log
      let r2 := walkL strip sd verbose fileName ix r1.2.1 r1.2.2
      (.elemAccess r1.1 r2.1, r2.2)
  | .voidExpr e, needed, log =>
      let r := walkL strip sd verbose fileName e needed log
      (.voidExpr r.1, r.2)
  | .exprStmt e, needed, log =>
      let r := walkL strip sd verbose fileName e needed log
      (.exprStmt r.1, r.2)
  | .emptyStmt, needed, log => (.emptyStmt, needed, log)
  | .returnStmt e, needed, log =>
      let r := walkLOpt strip sd verbose fileName e needed log
      (.returnStmt r.1, r.2)
  | .ifStmt c t e, needed, log =>
      let r1 := walkL strip sd verbose fileName c needed log
      let r2 := walkL strip sd verbose fileName t r1.2.1 r1.2.2
      let r3 := walkLOpt strip sd verbose fileName e r2.2.1 r2.2.2
      (.ifStmt r1.1 r2.1 r3.1, r3.2)
  | .block stmts, needed, log =>
      let r := walkLList strip sd verbose fileName stmts needed log
      (.block r.1, r.2)
  | .sourceFile stmts, needed, log =>
      let r := walkLList strip sd verbose fileName stmts needed log
      (.sourceFile r.1, r.2)
def walkLList (strip : Node → Bool) (sd verbose : Bool) (fileName : String) :
    NodeList → Bool → List String → NodeList × Bool × List String
  | .nil, needed, log => (.nil, needed, log)
  | .cons n l, needed, log =>
      let r1 := walkL strip sd verbose fileName n needed log
      let r2 := walkLList strip sd verbose fileName l r1.2.1 r1.2.2
      (.cons r1.1 r2.1, r2.2)
def walkLOpt (strip : Node → Bool) (sd verbose : Bool) (fileName : String) :
    NodeOpt → Bool → List String → NodeOpt × Bool × List String
  | .none, needed, log => (.none, needed, log)
  | .some n, needed, log =>
      let r := walkL strip sd verbose fileName n needed log
      (.some r.1, r.2)
end

/-- `stripFunctions` with the logging side channel explicit: the returned
pair is the printed output text together with the final
`(needed_to_strip, log)` state of the transformer run. -/
def stripFunctionsL (config : StripConfig) (verbose : Bool)
    (parse : String → String → Nat → Node) (printTree : Node → String)
    (path source : String) : String × Bool × List String :=
  let sourceFile := parse (basenameOf path) source (parseTarget config.compilerOptions)
  let r := walkL (shouldStrip config) config.stripDebugger verbose (basenameOf path)
    sourceFile false []
  (printTree r.1, r.2)



/-! ## Match-any semantics and sources with nothing to strip -/

/-- The specification's Pattern Matcher contract applied to a callee
(`matchesAny`): a two-segment dotted callee matches iff its
`base.method` name matches at least one pattern in the list. -/
def matchesAny (functions : List String) (expr : Node) : Bool :=
  match expr with
  | .propAccess (.ident baseName) (.ident methodName) =>
      functions.any (fun p => minimatch (baseName ++ "." ++ methodName) p)
  | _ => false

mutual
/-- A source tree with nothing to strip: it contains no debugger statement
and no call expression whose callee matches (match-any) the configured
patterns. -/
def noStrippable (functions : List String) : Node → Bool
  | .callExpr callee args =>
      !(matchesAny functions callee) && noStrippable functions callee &&
        noStrippableList functions args
  | .debuggerStmt => false
  | .ident _ => true
  | .privateIdent _ => true
  | .numLit _ => true
  | .strLit _ => true
  | .propAccess obj nm => noStrippable functions obj && noStrippable functions nm
  | .elemAccess obj ix => noStrippable functions obj && noStrippable functions ix
  | .voidExpr e => noStrippable functions e
  | .exprStmt e => noStrippable functions e
  | .emptyStmt => true
  | .returnStmt e => noStrippableOpt functions e
  | .ifStmt c t e =>
      noStrippable functions c && noStrippable functions t && noStrippableOpt functions e
  | .block stmts => noStrippableList functions stmts
  | .sourceFile stmts => noStrippableList functions stmts
def noStrippableList (functions : List String) : NodeList → Bool
  | .nil => true
  | .cons n l => noStrippable functions n && noStrippableList functions l
def noStrippableOpt (functions : List String) : NodeOpt → Bool
  | .none => true
  | .some n => noStrippable functions n
end



/-! ## Named inputs used by the claim theorems -/

/-- The statement-list rewrite of a `StripConfig` (the `walk` closure
applied to each element of a child list by `ts.visitEachChild`). -/
def walkList (config : StripConfig) : NodeList → NodeList :=
  walkPList (shouldStrip config) config.stripDebugger

/-- `Strip(config: Config = {})`: the empty user configuration (every
field absent, all defaults apply). -/
def emptyUserConfig : Config := {}

/-- The `StripConfig` resolved from the empty user configuration when the
tsconfig file is unreadable: the default function patterns, debugger
stripping on, and the default compiler options. -/
def defaultStripConfig : StripConfig :=
  ⟨defaultFunctions, true, getCompilerOptions .absent⟩

/-- AST of the specification's end-to-end example input
`if (x) { console.log("hi"); debugger; return x; }`. -/
def exampleInput : Node :=
  .ifStmt (.ident "x")
    (.block (.cons
      (.exprStmt (.callExpr (.propAccess (.ident "console") (.ident "log"))
        (.cons (.strLit "hi") .nil)))
      (.cons .debuggerStmt
        (.cons (.returnStmt (.some (.ident "x"))) .nil))))
    .none

/-- AST of the specification's expected end-to-end output
`if (x) { void 0; ; return x; }`. -/
def exampleOutput : Node :=
  .ifStmt (.ident "x")
    (.block (.cons
      (.exprStmt voidZero)
      (.cons .emptyStmt
        (.cons (.returnStmt (.some (.ident "x"))) .nil))))
    .none

/-- AST of `myMod.bar(1);` as a whole source file: a call whose dotted name
matches no default pattern, with no debugger statement. -/
def cleanExample : Node :=
  .sourceFile (.cons
    (.exprStmt (.callExpr (.propAccess (.ident "myMod") (.ident "bar"))
      (.cons (.numLit "1") .nil)))
    .nil)

/-! ## Lemmas: the logging side channel never influences the produced tree -/


mutual
theorem walkL_fst (strip : Node → Bool) (sd verbose : Bool) (fileName : String) :
    ∀ (n : Node) (needed : Bool) (log : List String),
      (walkL strip sd verbose fileName n needed log).1 = walkP strip sd n
  | .callExpr callee args, needed, log => by
      by_cases h : isPropertyAccessExpression callee && strip callee
      · by_cases hn : needed <;>
          simp [walkL, walkP, h, hn]
      · have ih1 := walkL_fst strip sd verbose fileName callee
        have ih2 := walkLList_fst strip sd verbose fileName args
        simp [walkL, walkP, h, ih1, ih2]
  | .debuggerStmt, needed, log => by
      by_cases h : sd <;> simp [walkL, walkP, h]
  | .ident s, needed, log => rfl
  | .privateIdent s, needed, log => rfl
  | .numLit s, needed, log => rfl
  | .strLit s, needed, log => rfl
  | .propAccess obj nm, needed, log => by
      have ih1 := walkL_fst strip sd verbose fileName obj
      have ih2 := walkL_fst strip sd verbose fileName nm
      simp [walkL, walkP, ih1, ih2]
  | .elemAccess obj ix, needed, log => by
      have ih1 := walkL_fst strip sd verbose fileName obj
      have ih2 := walkL_fst strip sd verbose fileName ix
      simp [walkL, walkP, ih1, ih2]
  | .voidExpr e, needed, log => by
      have ih := walkL_fst strip sd verbose fileName e
      simp [walkL, walkP, ih]
  | .exprStmt e, needed, log => by
      have ih := walkL_fst strip sd verbose fileName e
      simp [walkL, walkP, ih]
  | .emptyStmt, needed, log => rfl
  | .returnStmt e, needed, log => by
      have ih := walkLOpt_fst strip sd verbose fileName e
      simp [walkL, walkP, ih]
  | .ifStmt c t e, needed, log => by
      have ih1 := walkL_fst strip sd verbose fileName c
      have ih2 := walkL_fst strip sd verbose fileName t
      have ih3 := walkLOpt_fst strip sd verbose fileName e
      simp [walkL, walkP, ih1, ih2, ih3]
  | .block stmts, needed, log => by
      have ih := walkLList_fst strip sd verbose fileName stmts
      simp [walkL, walkP, ih]
  | .sourceFile stmts, needed, log => by
      have ih := walkLList_fst strip sd verbose fileName stmts
      simp [walkL, walkP, ih]
theorem walkLList_fst (strip : Node → Bool) (sd verbose : Bool) (fileName : String) :
    ∀ (l : NodeList) (needed : Bool) (log : List String),
      (walkLList strip sd verbose fileName l needed log).1 = walkPList strip sd l
  | .nil, needed, log => rfl
  | .cons n l, needed, log => by
      have ih1 := walkL_fst strip sd verbose fileName n
      have ih2 := walkLList_fst strip sd verbose fileName l
      simp [walkL, walkLList, walkPList, ih1, ih2]
theorem walkLOpt_fst (strip : Node → Bool) (sd verbose : Bool) (fileName : String) :
    ∀ (e : NodeOpt) (needed : Bool) (log : List String),
      (walkLOpt strip sd verbose fileName e needed log).1 = walkPOpt strip sd e
  | .none, needed, log => rfl
  | .some n, needed, log => by
      have ih := walkL_fst strip sd verbose fileName n
      simp [walkL, walkLOpt, walkPOpt, ih]
end




/-! ## Lemmas: idempotence of the rewrite -/

/-- Unfolding equation for the rewrite at a call expression. -/
theorem walkP_callExpr (strip : Node → Bool) (sd : Bool) (callee : Node) (args : NodeList) :
    walkP strip sd (.callExpr callee args) =
      if isPropertyAccessExpression callee && strip callee then voidZero
      else .callExpr (walkP strip sd callee) (walkPList strip sd args) := rfl

/-- Only an identifier is rewritten to an identifier. -/
theorem walkP_eq_ident {strip : Node → Bool} {sd : Bool} :
    ∀ {n : Node} {s : String}, walkP strip sd n = .ident s → n = .ident s := by
  intro n s h
  cases n
  case ident => exact h
  case callExpr callee args => rw [walkP_callExpr] at h; split at h <;> simp [voidZero] at h
  case debuggerStmt => simp only [walkP] at h; split at h <;> simp at h
  all_goals simp only [walkP] at h; simp at h

/-- Only a property access is rewritten to a property access, and its parts
are the rewrites of the original parts. -/
theorem walkP_eq_propAccess {strip : Node → Bool} {sd : Bool} :
    ∀ {n a b : Node}, walkP strip sd n = .propAccess a b →
      ∃ o nm, n = .propAccess o nm ∧ walkP strip sd o = a ∧ walkP strip sd nm = b := by
  intro n a b h
  cases n
  case propAccess o nm =>
    simp only [walkP] at h
    injection h with h1 h2
    exact ⟨o, nm, rfl, h1, h2⟩
  case callExpr callee args => rw [walkP_callExpr] at h; split at h <;> simp [voidZero] at h
  case debuggerStmt => simp only [walkP] at h; split at h <;> simp at h
  all_goals simp only [walkP] at h; simp at h

/-- `shouldStrip` accepts only callees of the exact shape
`identifier.identifier`. -/
theorem shouldStrip_shape {config : StripConfig} {n : Node}
    (h : shouldStrip config n = true) :
    ∃ b m, n = .propAccess (.ident b) (.ident m) := by
  unfold shouldStrip at h
  split at h
  · next b m => exact ⟨b, m, rfl⟩
  · exact absurd h (by simp)

/-- An `identifier.identifier` property access is a fixed point of the
rewrite. -/
theorem walkP_shape_fixed (strip : Node → Bool) (sd : Bool) (b m : String) :
    walkP strip sd (.propAccess (.ident b) (.ident m)) = .propAccess (.ident b) (.ident m) := rfl

mutual
theorem walkP_idem (strip : Node → Bool) (sd : Bool)
    (hstrip : ∀ n, strip n = true → ∃ b m, n = .propAccess (.ident b) (.ident m)) :
    ∀ n : Node, walkP strip sd (walkP strip sd n) = walkP strip sd n
  | .callExpr callee args => by
      by_cases h : (isPropertyAccessExpression callee && strip callee) = true
      · simp [walkP, voidZero, h]
      · have hcond : ¬((isPropertyAccessExpression (walkP strip sd callee) &&
            strip (walkP strip sd callee)) = true) := by
          intro hb
          have h2 : strip (walkP strip sd callee) = true := ((Bool.and_eq_true _ _).mp hb).2
          obtain ⟨b, m, hshape⟩ := hstrip _ h2
          obtain ⟨o, nm, ho, h1w, h2w⟩ := walkP_eq_propAccess hshape
          subst ho
          have ho' := walkP_eq_ident h1w
          have hnm' := walkP_eq_ident h2w
          subst ho'; subst hnm'
          rw [walkP_shape_fixed] at h2
          exact h ((Bool.and_eq_true _ _).mpr ⟨rfl, h2⟩)
        rw [walkP_callExpr, if_neg h, walkP_callExpr, if_neg hcond,
          walkP_idem strip sd hstrip callee, walkPList_idem strip sd hstrip args]
  | .debuggerStmt => by
      by_cases h : sd <;> simp [walkP, h]
  | .ident s => rfl
  | .privateIdent s => rfl
  | .numLit s => rfl
  | .strLit s => rfl
  | .propAccess obj nm => by
      simp only [walkP, walkP_idem strip sd hstrip obj, walkP_idem strip sd hstrip nm]
  | .elemAccess obj ix => by
      simp only [walkP, walkP_idem strip sd hstrip obj, walkP_idem strip sd hstrip ix]
  | .voidExpr e => by
      simp only [walkP, walkP_idem strip sd hstrip e]
  | .exprStmt e => by
      simp only [walkP, walkP_idem strip sd hstrip e]
  | .emptyStmt => rfl
  | .returnStmt e => by
      simp only [walkP, walkPOpt_idem strip sd hstrip e]
  | .ifStmt c t e => by
      simp only [walkP, walkP_idem strip sd hstrip c, walkP_idem strip sd hstrip t,
        walkPOpt_idem strip sd hstrip e]
  | .block stmts => by
      simp only [walkP, walkPList_idem strip sd hstrip stmts]
  | .sourceFile stmts => by
      simp only [walkP, walkPList_idem strip sd hstrip stmts]
theorem walkPList_idem (strip : Node → Bool) (sd : Bool)
    (hstrip : ∀ n, strip n = true → ∃ b m, n = .propAccess (.ident b) (.ident m)) :
    ∀ l : NodeList, walkPList strip sd (walkPList strip sd l) = walkPList strip sd l
  | .nil => rfl
  | .cons n l => by
      simp only [walkPList, walkP_idem strip sd hstrip n, walkPList_idem strip sd hstrip l]
theorem walkPOpt_idem (strip : Node → Bool) (sd : Bool)
    (hstrip : ∀ n, strip n = true → ∃ b m, n = .propAccess (.ident b) (.ident m)) :
    ∀ e : NodeOpt, walkPOpt strip sd (walkPOpt strip sd e) = walkPOpt strip sd e
  | .none => rfl
  | .some n => by
      simp only [walkPOpt, walkP_idem strip sd hstrip n]
end




/-! ## Lemmas: matching and untouched sources -/

/-- A strip decision by `src/index.ts`'s `shouldStrip` implies a match-any
match: the single consulted pattern is the head of the list. -/
theorem shouldStrip_implies_matchesAny {config : StripConfig} {n : Node}
    (h : shouldStrip config n = true) : matchesAny config.functions n = true := by
  obtain ⟨b, m, rfl⟩ := shouldStrip_shape h
  unfold shouldStrip at h
  unfold matchesAny
  cases hf : config.functions with
  | nil => rw [hf] at h; simp at h
  | cons p ps =>
      rw [hf] at h
      simp only [List.any_cons]
      simp at h
      simp [h]

mutual
theorem walkP_noStrippable (config : StripConfig) :
    ∀ n : Node, noStrippable config.functions n = true → walk config n = n
  | .callExpr callee args, h => by
      have h1 : matchesAny config.functions callee = false := by
        have := ((Bool.and_eq_true _ _).mp ((Bool.and_eq_true _ _).mp h).1).1
        simpa using this
      have hs : shouldStrip config callee = false := by
        cases hss : shouldStrip config callee with
        | false => rfl
        | true => rw [shouldStrip_implies_matchesAny hss] at h1; exact absurd h1 (by simp)
      have h2 := walkP_noStrippable config callee
        ((Bool.and_eq_true _ _).mp ((Bool.and_eq_true _ _).mp h).1).2
      have h3 := walkPList_noStrippable config args ((Bool.and_eq_true _ _).mp h).2
      unfold walk at h2 h3 ⊢
      rw [walkP_callExpr, if_neg (by simp [hs]), h2, h3]
  | .debuggerStmt, h => by exact absurd h (by simp [noStrippable])
  | .ident s, _ => rfl
  | .privateIdent s, _ => rfl
  | .numLit s, _ => rfl
  | .strLit s, _ => rfl
  | .propAccess obj nm, h => by
      have h1 := walkP_noStrippable config obj ((Bool.and_eq_true _ _).mp h).1
      have h2 := walkP_noStrippable config nm ((Bool.and_eq_true _ _).mp h).2
      unfold walk at h1 h2 ⊢
      simp only [walkP, h1, h2]
  | .elemAccess obj ix, h => by
      have h1 := walkP_noStrippable config obj ((Bool.and_eq_true _ _).mp h).1
      have h2 := walkP_noStrippable config ix ((Bool.and_eq_true _ _).mp h).2
      unfold walk at h1 h2 ⊢
      simp only [walkP, h1, h2]
  | .voidExpr e, h => by
      have h1 := walkP_noStrippable config e h
      unfold walk at h1 ⊢
      simp only [walkP, h1]
  | .exprStmt e, h => by
      have h1 := walkP_noStrippable config e h
      unfold walk at h1 ⊢
      simp only [walkP, h1]
  | .emptyStmt, _ => rfl
  | .returnStmt e, h => by
      have h1 := walkPOpt_noStrippable config e h
      unfold walk at h1 ⊢
      simp only [walkP, h1]
  | .ifStmt c t e, h => by
      have h1 := walkP_noStrippable config c
        ((Bool.and_eq_true _ _).mp ((Bool.and_eq_true _ _).mp h).1).1
      have h2 := walkP_noStrippable config t
        ((Bool.and_eq_true _ _).mp ((Bool.and_eq_true _ _).mp h).1).2
      have h3 := walkPOpt_noStrippable config e ((Bool.and_eq_true _ _).mp h).2
      unfold walk at h1 h2 h3 ⊢
      simp only [walkP, h1, h2, h3]
  | .block stmts, h => by
      have h1 := walkPList_noStrippable config stmts h
      unfold walk at h1 ⊢
      simp only [walkP, h1]
  | .sourceFile stmts, h => by
      have h1 := walkPList_noStrippable config stmts h
      unfold walk at h1 ⊢
      simp only [walkP, h1]
theorem walkPList_noStrippable (config : StripConfig) :
    ∀ l : NodeList, noStrippableList config.functions l = true →
      walkPList (shouldStrip config) config.stripDebugger l = l
  | .nil, _ => rfl
  | .cons n l, h => by
      have h1 := walkP_noStrippable config n ((Bool.and_eq_true _ _).mp h).1
      have h2 := walkPList_noStrippable config l ((Bool.and_eq_true _ _).mp h).2
      unfold walk at h1
      simp only [walkPList, h1, h2]
theorem walkPOpt_noStrippable (config : StripConfig) :
    ∀ e : NodeOpt, noStrippableOpt config.functions e = true →
      walkPOpt (shouldStrip config) config.stripDebugger e = e
  | .none, _ => rfl
  | .some n, h => by
      have h1 := walkP_noStrippable config n h
      unfold walk at h1
      simp only [walkPOpt, h1]
end

/-! ## Claim theorems -/

/-- C1 (code bug evidence): with the default pattern list
`["console.*", "assert.*"]`, the candidate `assert.ok` matches the second
pattern — match-any semantics (the spec's contract, the `List.any` fact and
the `part_000` variant all agree it should strip) — yet `src/index.ts`'s
`shouldStrip` returns `false`, because its loop `break`s after testing only
the first pattern. -/
theorem c1_matcher_checks_only_first_pattern :
    shouldStrip defaultStripConfig (.propAccess (.ident "assert") (.ident "ok")) = false
    ∧ defaultFunctions.any (fun p => minimatch "assert.ok" p) = true
    ∧ matchesAny defaultFunctions (.propAccess (.ident "assert") (.ident "ok")) = true
    ∧ Part000.shouldStrip (.list defaultFunctions)
        (.propAccess (.ident "assert") (.ident "ok")) = true := by
  exact ⟨by decide, by decide, by decide, by decide⟩

/-- C2 (code bug evidence): under the default configuration the compiled
default exclude glob `"*node_modules*"` does not match the multi-segment
path `src/node_modules/x.ts` (a `*` never crosses a `/` in minimatch and
the compiled regex is anchored), so that path is not excluded; and the
default include pattern (`null`, compiled as `"*"`) does not match
`src/x.ts`, so that path never reaches the load callback and is not
visited. -/
theorem c2_default_file_filter_misses :
    excludeTest emptyUserConfig "src/node_modules/x.ts" = false
    ∧ includeTest emptyUserConfig "src/x.ts" = false
    ∧ fileVisited emptyUserConfig "src/x.ts" = false := by
  exact ⟨by decide, by decide, by decide⟩

/-- C3: a call expression is stripped only when its callee is a property
access of the exact shape `identifier.identifier`; for any other callee,
under every configuration, `shouldStrip` rejects and the walk keeps the
node a call expression (merely rewriting its children). -/
theorem c3_only_simple_dotted_callees_stripped
    (config : StripConfig) (callee : Node) (args : NodeList)
    (h : ∀ b m, callee ≠ .propAccess (.ident b) (.ident m)) :
    shouldStrip config callee = false ∧
      walk config (.callExpr callee args) =
        .callExpr (walk config callee) (walkList config args) := by
  have hs : shouldStrip config callee = false := by
    cases hss : shouldStrip config callee with
    | false => rfl
    | true => obtain ⟨b, m, hb⟩ := shouldStrip_shape hss; exact absurd hb (h b m)
  refine ⟨hs, ?_⟩
  unfold walk walkList
  rw [walkP_callExpr, if_neg (by simp [hs])]

/-- C3 witness: `a.b.c()` with `functions = ["a.*"]` is not stripped (its
callee is a two-level dotted path, not `identifier.identifier`). -/
theorem c3_only_simple_dotted_callees_stripped_witness :
    shouldStrip ⟨["a.*"], true, ⟨Option.none⟩⟩
      (.propAccess (.propAccess (.ident "a") (.ident "b")) (.ident "c")) = false
    ∧ walk ⟨["a.*"], true, ⟨Option.none⟩⟩
        (.callExpr (.propAccess (.propAccess (.ident "a") (.ident "b")) (.ident "c")) .nil)
      = .callExpr
          (walk ⟨["a.*"], true, ⟨Option.none⟩⟩
            (.propAccess (.propAccess (.ident "a") (.ident "b")) (.ident "c")))
          (walkList ⟨["a.*"], true, ⟨Option.none⟩⟩ .nil) :=
  c3_only_simple_dotted_callees_stripped _ _ _ (fun b m hb => by simp at hb)

/-- C4: a call whose `identifier.identifier` callee passes `shouldStrip` is
replaced by `void 0` with its whole argument list discarded; a `debugger`
statement is replaced by an empty statement when `stripDebugger` holds; and
on the end-to-end example `if (x) { console.log("hi"); debugger; return x; }`
the default configuration produces the tree of
`if (x) { void 0; ; return x; }`. -/
theorem c4_matched_calls_and_debugger_replaced :
    (∀ (config : StripConfig) (b m : String) (args : NodeList),
        shouldStrip config (.propAccess (.ident b) (.ident m)) = true →
        walk config (.callExpr (.propAccess (.ident b) (.ident m)) args) = voidZero)
    ∧ (∀ config : StripConfig, config.stripDebugger = true →
        walk config .debuggerStmt = .emptyStmt)
    ∧ walk defaultStripConfig exampleInput = exampleOutput := by
  refine ⟨?_, ?_, rfl⟩
  · intro config b m args h
    unfold walk
    rw [walkP_callExpr, if_pos]
    simp [isPropertyAccessExpression, h]
  · intro config h
    unfold walk
    simp [walkP, h]

/-- C4 witness: under the default configuration, `console.log("hi")` is
replaced by `void 0` (its argument discarded) and `debugger;` by an empty
statement. -/
theorem c4_matched_calls_and_debugger_replaced_witness :
    walk defaultStripConfig
        (.callExpr (.propAccess (.ident "console") (.ident "log"))
          (.cons (.strLit "hi") .nil)) = voidZero
    ∧ walk defaultStripConfig .debuggerStmt = .emptyStmt :=
  ⟨c4_matched_calls_and_debugger_replaced.1 defaultStripConfig "console" "log" _ (by decide),
   c4_matched_calls_and_debugger_replaced.2.1 defaultStripConfig rfl⟩

/-- C5 (code bug evidence): in `part_000`, an explicitly `null` `functions`
field is coalesced by `??` into the *default* pattern list before
`shouldStrip`'s `=== null` guard can ever see it, so `console.log("hi")` is
stripped; only a genuine `null` reaching `shouldStrip` (which the `Strip`
resolution makes unreachable) would disable stripping. -/
theorem c5_explicit_null_functions_still_strips :
    Part000.resolvedFunctions (Option.some FilterPattern.null)
      = .list ["console.*", "assert.*"]
    ∧ Part000.walk (Part000.resolvedFunctions (Option.some FilterPattern.null)) true
        (.exprStmt (.callExpr (.propAccess (.ident "console") (.ident "log"))
          (.cons (.strLit "hi") .nil)))
      = .exprStmt voidZero
    ∧ Part000.shouldStrip FilterPattern.null
        (.propAccess (.ident "console") (.ident "log")) = false :=
  ⟨rfl, rfl, rfl⟩

/-- C6: when the resolved configuration has an empty `functions` list and
debugger stripping disabled, the installed load callback resolves to
`undefined` (Bun's no-change signal) for every file, independently of the
parse and print collaborators — the source is never parsed. -/
theorem c6_nothing_to_strip_pass_through (config : Config)
    (h1 : resolvedFunctions config = []) (h2 : resolvedStripDebugger config = false) :
    ∀ (tsconfig : TsConfigFile) (parse : String → String → Nat → Node)
      (printTree : Node → String) (path contents : String),
      onLoadCallback config tsconfig parse printTree path contents = .undef := by
  intro tsconfig parse printTree path contents
  simp [onLoadCallback, nothingToStrip, h1, h2]

/-- C6 witness: with `functions: []` and `debugger: false`, the callback
returns the no-change signal on a concrete file. -/
theorem c6_nothing_to_strip_pass_through_witness :
    resolvedFunctions ⟨Option.none, Option.none, Option.some false, Option.some [], Option.none⟩ = []
    ∧ resolvedStripDebugger ⟨Option.none, Option.none, Option.some false, Option.some [], Option.none⟩ = false
    ∧ onLoadCallback ⟨Option.none, Option.none, Option.some false, Option.some [], Option.none⟩
        .absent (fun _ _ _ => .sourceFile .nil) (fun _ => "") "src/a.ts" "console.log(1)"
      = .undef :=
  ⟨rfl, rfl,
    c6_nothing_to_strip_pass_through
      ⟨Option.none, Option.none, Option.some false, Option.some [], Option.none⟩ rfl rfl
      .absent (fun _ _ _ => .sourceFile .nil) (fun _ => "") "src/a.ts" "console.log(1)"⟩

/-- C7: on a source tree containing no debugger statement and no call whose
two-segment dotted callee matches (match-any) the configured patterns, the
rewrite is the identity at tree level, so the printed output differs from
the input only by the printer's formatting canonicalization. -/
theorem c7_no_matching_calls_identity (config : StripConfig) (n : Node)
    (h : noStrippable config.functions n = true) : walk config n = n :=
  walkP_noStrippable config n h

/-- C7 witness: the file `myMod.bar(1);` is untouched by the default
configuration. -/
theorem c7_no_matching_calls_identity_witness :
    noStrippable defaultStripConfig.functions cleanExample = true
    ∧ walk defaultStripConfig cleanExample = cleanExample :=
  ⟨by decide, c7_no_matching_calls_identity defaultStripConfig cleanExample (by decide)⟩

/-- C8: the transform is idempotent — rewriting an already-rewritten tree
changes nothing, for every configuration (stripped calls became `void 0`
and debugger statements became empty statements, neither of which is
stripped again; and the rewrite can never create a new strippable
callee). -/
theorem c8_transform_idempotent (config : StripConfig) (n : Node) :
    walk config (walk config n) = walk config n :=
  walkP_idem (shouldStrip config) config.stripDebugger
    (fun _ h => shouldStrip_shape h) n

/-- C9 counterexample: a tsconfig file that reads and parses successfully
but has no `compilerOptions` member does *not* produce the built-in default
compiler options — `ts.convertCompilerOptionsFromJson(undefined, "")`
returns empty options (no `target`), while `ts.getDefaultCompilerOptions()`
carries `target: ES5`; downstream the two choose different parse targets. -/
theorem c9_missing_compiler_options_not_defaults :
    getCompilerOptions (.valid Option.none) ≠ getDefaultCompilerOptions := by
  decide

/-- C9 amended: the resolver is total (never raises); the try-body can
throw only while *reading* the file (`readFileSync`), and whenever it does,
the catch yields the built-in defaults; once the file is read, the
error-recovering parse makes malformed content and a missing
`compilerOptions` member alike yield the empty converted options, not the
built-in defaults. -/
theorem c9_failure_fallback :
    getCompilerOptions .absent = getDefaultCompilerOptions
    ∧ getCompilerOptions (.valid Option.none) = ⟨Option.none⟩
    ∧ (∀ file, getCompilerOptionsBody file = .error () →
        getCompilerOptions file = getDefaultCompilerOptions)
    ∧ (∀ file, getCompilerOptionsBody file = .error () → file = .absent) := by
  refine ⟨rfl, rfl, fun file h => ?_, fun file h => ?_⟩
  · unfold getCompilerOptions
    rw [h]
  · cases file with
    | absent => rfl
    | valid co => exact absurd h (by simp [getCompilerOptionsBody])

/-- C9 witness: the unreadable-file case throws in the try-body and the
catch produces the built-in defaults. -/
theorem c9_failure_fallback_witness :
    getCompilerOptionsBody .absent = .error ()
    ∧ getCompilerOptions .absent = getDefaultCompilerOptions :=
  ⟨rfl, c9_failure_fallback.2.2.1 .absent rfl⟩

/-- C10: the transformation result is a pure function of configuration,
path and source — the logging side channel never feeds back into it: with
`verbose` on or off (and whatever the `needed_to_strip`/log state does),
the produced text equals the pure `stripFunctions` output. -/
theorem c10_verbose_never_affects_output
    (config : StripConfig) (parse : String → String → Nat → Node)
    (printTree : Node → String) (path source : String) :
    (∀ verbose, (stripFunctionsL config verbose parse printTree path source).1
        = stripFunctions config parse printTree path source)
    ∧ (stripFunctionsL config true parse printTree path source).1
        = (stripFunctionsL config false parse printTree path source).1 := by
  have key : ∀ verbose, (stripFunctionsL config verbose parse printTree path source).1
      = stripFunctions config parse printTree path source := fun verbose =>
    congrArg printTree (walkL_fst (shouldStrip config) config.stripDebugger verbose
      (basenameOf path) (parse (basenameOf path) source (parseTarget config.compilerOptions))
      false [])
  exact ⟨key, (key true).trans (key false).symm⟩

end BunPluginStrip
